import Mathlib

/-!
Verification of the external-agent execution core of the obsidian-claude-code
plugin: the stream parser and tool-call correlator (`MessageParser.ts`), the
process supervisor's outcome resolution and input queue (`ClaudeCliService`),
and the session persistence layer (`SessionManager.ts`).

The embedding is shallow: every definition is a direct functional translation
of the corresponding TypeScript. JavaScript values parsed from JSON are
modelled by the inductive `JValue`; JavaScript truthiness, `||` defaulting and
`Map` semantics are modelled explicitly. `JSON.parse` itself (a platform
primitive, not repository code) is abstracted as a `decode` parameter of type
`String → Option RawStreamMessage` (resp. handled as an already-parsed
`JValue`), where `none` stands for a thrown parse error.
-/

set_option autoImplicit false

namespace ObsidianClaude

/-- A JSON value as produced by `JSON.parse`: null, boolean, number, string,
array or object (an ordered field list). Numbers are modelled as integers,
which suffices for every claim considered here. -/
inductive JValue where
  | null
  | bool (b : Bool)
  | num (n : Int)
  | str (s : String)
  | arr (elems : List JValue)
  | obj (fields : List (String × JValue))

/-- JavaScript truthiness of a `JValue`: `null`, `false`, `0` and `""` are
falsy; every array and object (even empty) is truthy. -/
def jsTruthy : JValue → Bool
  | .null => false
  | .bool b => b
  | .num n => n != 0
  | .str s => s != ""
  | .arr _ => true
  | .obj _ => true

/-- Property access `v[k]` on a parsed JSON value: a field lookup on objects,
`undefined` (`none`) on everything else. -/
def getField : JValue → String → Option JValue
  | .obj fields, k => lookupField fields k
  | _, _ => none
where
  lookupField : List (String × JValue) → String → Option JValue
  | [], _ => none
  | (k', v) :: rest, k => if k' = k then some v else lookupField rest k

/-- JavaScript `typeof v === 'object'` for a parsed JSON value: true for
`null`, arrays and objects. -/
def typeofObject : JValue → Bool
  | .null => true
  | .arr _ => true
  | .obj _ => true
  | _ => false

/-- Truthiness of an optional string (an `undefined`-or-string JS value):
truthy iff present and non-empty. -/
def strTruthy : Option String → Bool
  | some s => s != ""
  | none => false

/-- JavaScript `a || b` on optional strings: `a` if truthy, else `b`. -/
def jsOrStr (a b : Option String) : Option String :=
  if strTruthy a then a else b

/-- JavaScript `input || {}` for a tool-use block's input: the input when
present and truthy, an empty object otherwise. -/
def jsOrInput : Option JValue → JValue
  | some v => if jsTruthy v then v else .obj []
  | none => .obj []

/-! ### A JavaScript `Map` keyed by strings, as an association list

`Map.set` updates an existing entry in place or appends a fresh one;
`Map.get` returns the entry's value or `undefined`; `Map.delete` removes
the entry. Keys are unique by construction (`mapSet` never duplicates), so
removing every occurrence coincides with `Map.delete`. -/

/-- JS `Map.set`: replace the value of an existing key in place, or append. -/
def mapSet {α : Type} : List (String × α) → String → α → List (String × α)
  | [], k, v => [(k, v)]
  | (k', v') :: rest, k, v =>
    if k' = k then (k, v) :: rest else (k', v') :: mapSet rest k v

/-- JS `Map.get`: the value stored under the key, or `undefined` (`none`). -/
def mapGet {α : Type} : List (String × α) → String → Option α
  | [], _ => none
  | (k', v') :: rest, k => if k' = k then some v' else mapGet rest k

/-- JS `Map.delete`: remove the key's entry. -/
def mapDel {α : Type} : List (String × α) → String → List (String × α)
  | [], _ => []
  | (k', v') :: rest, k =>
    if k' = k then mapDel rest k else (k', v') :: mapDel rest k

/-! ### The stream parser (`MessageParser.ts`) -/

/-- A content block inside a raw stream record (`ContentBlock` in
`MessageParser.ts`); absent fields are `none`. -/
structure ContentBlock where
  type : String
  text : Option String := none
  thinking : Option String := none
  id : Option String := none
  name : Option String := none
  input : Option JValue := none
  content : Option String := none
  tool_use_id : Option String := none

/-- The nested `message` envelope of a raw stream record. -/
structure RawMessageBody where
  content : Option (List ContentBlock) := none

/-- A raw NDJSON record from the CLI stream (`RawStreamMessage` in
`MessageParser.ts`). -/
structure RawStreamMessage where
  type : String
  subtype : Option String := none
  session_id : Option String := none
  message : Option RawMessageBody := none
  result : Option String := none
  name : Option String := none
  input : Option JValue := none
  output : Option String := none
  tool_name : Option String := none
  tool_use_id : Option String := none
  is_error : Option Bool := none

/-- A normalized semantic event (`ClaudeStreamMessage` in `types/claude.ts`);
the parser only ever writes string content, so `content` is an optional
string here. -/
structure Msg where
  type : String
  id : Option String := none
  role : Option String := none
  content : Option String := none
  name : Option String := none
  input : Option JValue := none
  output : Option String := none
  tool_use_id : Option String := none
  is_error : Option Bool := none
  subtype : Option String := none
  session_id : Option String := none

/-- One registered tool call awaiting its result. -/
structure ToolCallInfo where
  name : String
  input : JValue

/-- The correlator state `activeToolCalls : Map<string, {name, input}>`. -/
def ToolMap := List (String × ToolCallInfo)

/-- `raw.message?.content`: the optional content-block list of a record. -/
def contentBlocks (raw : RawStreamMessage) : Option (List ContentBlock) :=
  raw.message.bind (·.content)

/-- The event skeleton `baseMsg` built at the top of `normalizeMessage`. -/
def baseMsg (raw : RawStreamMessage) : Msg :=
  { type := raw.type, session_id := raw.session_id }

/-- The guard `block.type === 'thinking' && block.thinking` of the
assistant-record block loop. -/
def isThinkingBlock (b : ContentBlock) : Bool :=
  b.type == "thinking" && strTruthy b.thinking

/-- The guard `block.type === 'text' && block.text` of the assistant-record
block loop. -/
def isTextBlock (b : ContentBlock) : Bool :=
  b.type == "text" && strTruthy b.text

/-- The registration guard `block.id && block.name` of a `tool_use` block. -/
def canRegister (b : ContentBlock) : Bool :=
  strTruthy b.id && strTruthy b.name

/-- The guard `block.type === 'tool_result' && block.tool_use_id` of the
user-record block loop. -/
def matchesToolResult (b : ContentBlock) : Bool :=
  b.type == "tool_result" && strTruthy b.tool_use_id

/-- One step of the `assistant`-record block loop of `normalizeMessage`
(lines 58–84): a truthy `thinking` block yields a thinking event, a truthy
`text` block yields an assistant-text event, a `tool_use` block registers the
call (when both id and name are truthy) and yields a tool-call event. -/
def procAssistantBlock (base : Msg) (acc : ToolMap × List Msg) (b : ContentBlock) :
    ToolMap × List Msg :=
  if isThinkingBlock b then
    (acc.1, acc.2 ++ [{ type := "thinking", session_id := base.session_id,
                        content := b.thinking }])
  else if isTextBlock b then
    (acc.1, acc.2 ++ [{ base with content := b.text, role := some "assistant" }])
  else if b.type == "tool_use" then
    (if canRegister b then
       mapSet acc.1 (b.id.getD "") ⟨b.name.getD "", jsOrInput b.input⟩
     else acc.1,
     acc.2 ++ [{ type := "tool_use", id := b.id, session_id := base.session_id,
                 name := b.name, input := b.input }])
  else acc

/-- One step of the `user`-record block loop of `normalizeMessage`
(lines 94–109): a `tool_result` block with a truthy call-id looks the id up
in the correlator, emits a tool-result event carrying the remembered
name/input, and deletes the entry. -/
def procUserBlock (sid : Option String) (ierr : Option Bool)
    (acc : ToolMap × List Msg) (b : ContentBlock) : ToolMap × List Msg :=
  if matchesToolResult b then
    (mapDel acc.1 (b.tool_use_id.getD ""),
     acc.2 ++ [{ type := "tool_result", id := b.tool_use_id, session_id := sid,
                 name := (mapGet acc.1 (b.tool_use_id.getD "")).map (·.name),
                 input := (mapGet acc.1 (b.tool_use_id.getD "")).map (·.input),
                 output := b.content, is_error := ierr }])
  else acc

/-- `registersKey b k`: processing block `b` writes a correlator entry under
key `k`. -/
def registersKey (b : ContentBlock) (k : String) : Bool :=
  b.type == "tool_use" && canRegister b && b.id.getD "" == k

/-- The common tail of `normalizeMessage` (lines 116–131): adjust `baseMsg`
for `result`, `system`/`init` and standalone `tool_use` records. -/
def tailMsg (raw : RawStreamMessage) : Msg :=
  let m := baseMsg raw
  let m := if raw.type == "result" && strTruthy raw.result then
      { m with content := raw.result } else m
  let m := if raw.type == "system" && (raw.subtype == some "init") then
      { m with subtype := some "init" } else m
  if raw.type == "tool_use" then
    { m with name := jsOrStr raw.name raw.tool_name, input := raw.input }
  else m

/-- `normalizeMessage`, threading the correlator state explicitly. The
`assistant` and `user` branches require a present content list (a JS array is
always truthy); an `assistant` record whose blocks produce no event still
yields the bare base event, and a `user` record whose blocks produce no event
falls through to the common tail (which, for type `user`, is the bare base
event as well). -/
def normalizeMessage (st : ToolMap) (raw : RawStreamMessage) : ToolMap × List Msg :=
  if raw.type == "assistant" && (contentBlocks raw).isSome then
    let r := ((contentBlocks raw).getD []).foldl (procAssistantBlock (baseMsg raw)) (st, [])
    if r.2.isEmpty then (r.1, [baseMsg raw]) else r
  else if raw.type == "user" && (contentBlocks raw).isSome then
    let r := ((contentBlocks raw).getD []).foldl
      (procUserBlock raw.session_id raw.is_error) (st, [])
    if r.2.isEmpty then (r.1, [tailMsg raw]) else r
  else (st, [tailMsg raw])

/-! ### `parseLine`: trimming and decode failure -/

/-- Whitespace as recognised by JavaScript's `String.prototype.trim`. -/
def isJsWs (c : Char) : Bool :=
  c = ' ' || c = '\t' || c = '\n' || c = '\r' || c = '\x0b' || c = '\x0c' || c = '\u00A0'

/-- Trim on character lists: drop whitespace from both ends. -/
def jsTrimList (l : List Char) : List Char :=
  ((l.dropWhile isJsWs).reverse.dropWhile isJsWs).reverse

/-- JavaScript `line.trim()`. -/
def jsTrim (s : String) : String := ⟨jsTrimList s.data⟩

/-- `parseLine`: trim the line; a blank line yields no events (`null`); decode
the trimmed line as JSON, swallowing a decode failure into `null`; otherwise
normalize the record. `decode` abstracts the `JSON.parse` platform primitive
(`none` = thrown parse error). Total by construction: no input makes it fail
the caller. -/
def parseLineS (decode : String → Option RawStreamMessage) (st : ToolMap)
    (line : String) : ToolMap × Option (List Msg) :=
  let trimmed := jsTrim line
  if trimmed = "" then (st, none)
  else
    match decode trimmed with
    | some raw =>
      let r := normalizeMessage st raw
      (r.1, some r.2)
    | none => (st, none)

/-! ### The process supervisor (`ClaudeCliService.execute`)

The run-local accumulator consists of the `messages` array, the `sessionId`
variable and the `finalContent` variable of `execute`; each parsed message is
processed by the body of the streaming loop (lines 109–135). -/

/-- The outcome accumulator of one run. -/
structure RunAcc where
  messages : List Msg := []
  sessionId : Option String := none
  finalContent : String := ""

/-- The streaming-loop body for one parsed message: push it, overwrite
`sessionId` whenever the message carries a truthy session id, and overwrite
`finalContent` from truthy `assistant` or `result` content. -/
def processParsed (acc : RunAcc) (m : Msg) : RunAcc :=
  { messages := acc.messages ++ [m]
    sessionId := if strTruthy m.session_id then m.session_id else acc.sessionId
    finalContent :=
      if m.type == "assistant" && strTruthy m.content then m.content.getD ""
      else if m.type == "result" && strTruthy m.content then m.content.getD ""
      else acc.finalContent }

/-- The accumulator after streaming a sequence of parsed messages. -/
def runAccOf (msgs : List Msg) : RunAcc :=
  msgs.foldl processParsed {}

/-- The close-handler flush loop body (lines 160–165): push every message;
only truthy `result` content overwrites `finalContent`. -/
def flushStep (acc : RunAcc) (m : Msg) : RunAcc :=
  { acc with
    messages := acc.messages ++ [m]
    finalContent :=
      if m.type == "result" && strTruthy m.content then m.content.getD ""
      else acc.finalContent }

/-- The close handler's final-buffer parse (lines 156–171): if the leftover
line buffer is non-blank, parse it once more and fold the flush loop over the
resulting messages; a parse failure (swallowed) leaves the accumulator as is. -/
def flushClose (decode : String → Option RawStreamMessage) (pst : ToolMap)
    (acc : RunAcc) (buffer : String) : ToolMap × RunAcc :=
  if jsTrim buffer ≠ "" then
    match parseLineS decode pst buffer with
    | (pst', some ms) => (pst', ms.foldl flushStep acc)
    | (pst', none) => (pst', acc)
  else (pst, acc)

/-- The messages contributed by the close-handler flush alone. -/
def flushMsgs (decode : String → Option RawStreamMessage) (pst : ToolMap)
    (buffer : String) : List Msg :=
  if jsTrim buffer ≠ "" then ((parseLineS decode pst buffer).2).getD [] else []

/-- The resolved outcome record (`ClaudeExecutionResult`). -/
structure ExecutionResult where
  success : Bool
  sessionId : Option String := none
  messages : List Msg := []
  finalContent : Option String := none
  error : Option String := none

/-- JavaScript string interpolation of the exit code, where a process killed
by a signal closes with code `null`. -/
def codeStr : Option Int → String
  | some n => toString n
  | none => "null"

/-- The close handler's resolution (lines 150–187): flush the leftover
buffer, then resolve success when the exit code is `0` or the accumulated
final content is non-empty, and failure otherwise, carrying stderr or the
generic exit-status message. -/
def closeResolve (decode : String → Option RawStreamMessage) (pst : ToolMap)
    (acc : RunAcc) (buffer stderrData : String) (code : Option Int) :
    ExecutionResult :=
  let acc' := (flushClose decode pst acc buffer).2
  if code = some 0 ∨ acc'.finalContent ≠ "" then
    { success := true, sessionId := acc'.sessionId, messages := acc'.messages,
      finalContent := some acc'.finalContent }
  else
    { success := false, messages := acc'.messages,
      error := some (if stderrData ≠ "" then stderrData
                     else "Process exited with code " ++ codeStr code) }

/-! ### The input queue (`queueInput` / `getAndClearQueuedInput`) -/

/-- The queue-relevant state of a `ClaudeCliService` instance: the active
process handle (opaque) and the single queued-input slot. -/
structure CliState where
  activeProcess : Option Unit := none
  queuedInput : Option String := none

/-- `isRunning`: the active process handle is not null. -/
def isRunning (st : CliState) : Bool := st.activeProcess.isSome

/-- `queueInput`: accept and store the input only while a run is in progress;
storing overwrites any previously queued input. -/
def queueInput (st : CliState) (input : String) : Bool × CliState :=
  if isRunning st then (true, { st with queuedInput := some input })
  else (false, st)

/-- `getAndClearQueuedInput`: atomically return and clear the slot. -/
def getAndClearQueuedInput (st : CliState) : Option String × CliState :=
  (st.queuedInput, { st with queuedInput := none })

/-! ### The session store (`SessionManager.ts`) -/

/-- A context reference attached to a session (`ContextReference`). -/
structure ContextRef where
  type : String
  path : Option String := none
  content : String := ""
  title : Option String := none
  url : Option String := none

/-- An in-memory chat message (`ChatMessage`); the role is kept as the raw
runtime string. -/
structure ChatMessageL where
  id : String
  role : String
  content : String := ""
  timestamp : Nat := 0
  isStreaming : Option Bool := none
  error : Option String := none

/-- An in-memory chat session (`ChatSession`). -/
structure ChatSession where
  id : String
  name : String
  claudeSessionId : Option String := none
  messages : List ChatMessageL := []
  context : List ContextRef := []
  createdAt : Nat
  updatedAt : Nat
  notePath : Option String := none

/-- The `SessionManager` state: the sessions map and the active-session id. -/
structure SMState where
  sessions : List (String × ChatSession) := []
  activeSessionId : Option String := none

/-- `generateId`: a fresh id from the current clock reading and a random
suffix. -/
def generateId (now : Nat) (rand : String) : String :=
  "session-" ++ toString now ++ "-" ++ rand

/-- `createSession`: build a session with a generated id, the given or a
default date-derived name, empty message and context lists, and two
consecutive clock readings as `createdAt` and `updatedAt`; store it and make
it active. `now0` is the clock reading inside `generateId`; `now1` and `now2`
are the two separate `Date.now()` readings for `createdAt` and `updatedAt`. -/
def createSession (st : SMState) (nameOpt : Option String) (dateStr : String)
    (now0 now1 now2 : Nat) (rand : String) : ChatSession × SMState :=
  let id := generateId now0 rand
  let session : ChatSession :=
    { id
      name := (jsOrStr nameOpt (some ("Chat " ++ dateStr))).getD ""
      messages := []
      context := []
      createdAt := now1
      updatedAt := now2 }
  (session,
   { st with sessions := mapSet st.sessions id session, activeSessionId := some id })

/-- `getSession`: a plain map lookup. -/
def getSession (st : SMState) (id : String) : Option ChatSession :=
  mapGet st.sessions id

/-- `getActiveSession`: null when no (truthy) active id, else the map entry
or null. -/
def getActiveSession (st : SMState) : Option ChatSession :=
  match st.activeSessionId with
  | some id => if id = "" then none else mapGet st.sessions id
  | none => none

/-- `deleteSession`: remove the in-memory entry first, then attempt to delete
the durable record; a failure of the durable deletion is caught and does not
affect the in-memory state, which is why the result ignores
`vaultDeleteFails`. -/
def deleteSession (st : SMState) (id : String) (vaultDeleteFails : Bool) : SMState :=
  let _ := vaultDeleteFails
  { st with sessions := mapDel st.sessions id }

/-! ### Load-time validation (`isValidSession` / `loadSessions`)

Validation runs on untrusted parsed JSON, so it is modelled on `JValue`. -/

/-- The message check of the `isValidSession` loop (lines 20–25): the element
must be a truthy object-typed value with a string `id` and a `role` strictly
equal to `'user'` or `'assistant'`. -/
def msgCheck (m : JValue) : Bool :=
  if !(jsTruthy m) || !(typeofObject m) then false
  else
    match getField m "id" with
    | some (.str _) =>
      match getField m "role" with
      | some (.str r) => r == "user" || r == "assistant"
      | _ => false
    | _ => false

/-- `isValidSession` (lines 8–28): a truthy object-typed value with a
non-empty string `id`, an array `messages`, numeric `createdAt` and
`updatedAt`, and every message passing `msgCheck`. -/
def isValidSession (v : JValue) : Bool :=
  if !(jsTruthy v) || !(typeofObject v) then false
  else
    match getField v "id" with
    | some (.str id) =>
      if id = "" then false
      else
        match getField v "messages" with
        | some (.arr msgs) =>
          match getField v "createdAt" with
          | some (.num _) =>
            match getField v "updatedAt" with
            | some (.num _) => msgs.all msgCheck
            | _ => false
          | _ => false
        | _ => false
    | _ => false

/-- The string `id` field of a validated record (used as the map key when
storing it). -/
def getStrField (v : JValue) (k : String) : String :=
  match getField v k with
  | some (.str s) => s
  | _ => ""

/-- JavaScript `path.endsWith(suffix)`, computed on character lists. -/
def strEndsWith (s suffix : String) : Bool :=
  suffix.data.isSuffixOf s.data

/-- `loadSessions` (lines 53–89) over a directory listing: each file is a
path paired with the outcome of reading-and-`JSON.parse`-ing it (`none` for a
thrown read/parse error). Only `.json` files are considered; a parse failure
or a validation failure skips the record without aborting the load; a valid
record is stored under its own `id`. -/
def loadSessions (files : List (String × Option JValue)) : List (String × JValue) :=
  files.foldl
    (fun m f =>
      if strEndsWith f.1 ".json" then
        match f.2 with
        | some v => if isValidSession v then mapSet m (getStrField v "id") v else m
        | none => m
      else m)
    []

/-! ### Spec-side comparison definitions

These follow the wording of spec/claim sentences (not the source) and exist
only to be compared with the source-translated definitions above. -/

/-- The last non-empty session id carried by any message, written the way the
amended claim states it: the last non-empty session id of a sequence is the
last one of its tail when the tail carries any, and otherwise the head's
session id if that is non-empty. -/
def lastTruthySid : List Msg → Option String
  | [] => none
  | m :: t =>
    match lastTruthySid t with
    | some s => some s
    | none => if strTruthy m.session_id then m.session_id else none

/-- Message validity as the claim states it: a string id and a role drawn
from the closed role set `{user, assistant, system}`. -/
def claimedValidMessage (m : JValue) : Bool :=
  (match getField m "id" with
   | some (.str _) => true
   | _ => false) &&
  (match getField m "role" with
   | some (.str r) => r == "user" || r == "assistant" || r == "system"
   | _ => false)

/-- Session-record acceptance as the claim states it: a string id, a message
list, numeric created-at and updated-at timestamps, and every message passing
`claimedValidMessage`. -/
def claimedValidSession (v : JValue) : Bool :=
  (match getField v "id" with
   | some (.str _) => true
   | _ => false) &&
  (match getField v "messages" with
   | some (.arr ms) => ms.all claimedValidMessage
   | _ => false) &&
  (match getField v "createdAt" with
   | some (.num _) => true
   | _ => false) &&
  (match getField v "updatedAt" with
   | some (.num _) => true
   | _ => false)

/-- Message validity as the source actually enforces it: a string id and a
role drawn from the closed role set `{user, assistant}` only. -/
def amendedValidMessage (m : JValue) : Bool :=
  (match getField m "id" with
   | some (.str _) => true
   | _ => false) &&
  (match getField m "role" with
   | some (.str r) => r == "user" || r == "assistant"
   | _ => false)

/-- Session-record acceptance as amended: a non-empty string id, a message
list, numeric timestamps, and every message passing `amendedValidMessage`. -/
def amendedValidSession (v : JValue) : Bool :=
  (match getField v "id" with
   | some (.str s) => s != ""
   | _ => false) &&
  (match getField v "messages" with
   | some (.arr ms) => ms.all amendedValidMessage
   | _ => false) &&
  (match getField v "createdAt" with
   | some (.num _) => true
   | _ => false) &&
  (match getField v "updatedAt" with
   | some (.num _) => true
   | _ => false)

/-! ### Concrete sample values used by witnesses and counterexamples -/

/-- A decode oracle that fails on every line (all lines malformed). -/
def decodeNone : String → Option RawStreamMessage := fun _ => none

/-- A raw `result` record carrying final text, as it would sit unparsed in
the line buffer when the process is terminated. -/
def lateResultRaw : RawStreamMessage := { type := "result", result := some "late" }

/-- A decode oracle recognising exactly the buffered final line. -/
def decodeLate : String → Option RawStreamMessage :=
  fun s => if s = "LATE_RESULT_LINE" then some lateResultRaw else none

/-- A plain text content block. -/
def textBlockSample : ContentBlock := { type := "text", text := some "hi" }

/-- A `user` record whose only content block is a text block: no block
matches the tool-result dispatch. -/
def userTextRaw : RawStreamMessage :=
  { type := "user", session_id := some "s",
    message := some { content := some [textBlockSample] } }

/-- A message carrying external session id `a`. -/
def sidMsgA : Msg := { type := "system", session_id := some "a" }

/-- A message carrying a different non-empty external session id `b`. -/
def sidMsgB : Msg := { type := "system", session_id := some "b" }

/-- A structurally valid persisted session record. -/
def validSessionRec : JValue :=
  .obj [("id", .str "s1"), ("messages", .arr []),
        ("createdAt", .num 100), ("updatedAt", .num 200)]

/-- A persisted session record missing `updatedAt`. -/
def noUpdatedAtRec : JValue :=
  .obj [("id", .str "s2"), ("messages", .arr []), ("createdAt", .num 100)]

/-- A persisted session record that is valid except that one message's role
is `system`. -/
def systemRoleRec : JValue :=
  .obj [("id", .str "s3"),
        ("messages", .arr [.obj [("id", .str "m1"), ("role", .str "system")]]),
        ("createdAt", .num 1), ("updatedAt", .num 2)]

/-- A tool-use content block for the correlation witness. -/
def toolUseBlockSample : ContentBlock :=
  { type := "tool_use", id := some "t1", name := some "Read",
    input := some (.obj [("file_path", .str "a.md")]) }

/-- An assistant record carrying the sample tool-use block. -/
def assistantToolUseRaw : RawStreamMessage :=
  { type := "assistant", session_id := some "sess",
    message := some { content := some [toolUseBlockSample] } }

/-- A tool-result content block answering the sample tool-use block. -/
def toolResultBlockSample : ContentBlock :=
  { type := "tool_result", tool_use_id := some "t1", content := some "contents" }

/-- A user record carrying the sample tool-result block. -/
def userToolResultRaw : RawStreamMessage :=
  { type := "user", session_id := some "sess",
    message := some { content := some [toolResultBlockSample] } }

/-- Two sample sessions for the deletion witness. -/
def sessSampleA : ChatSession := { id := "a", name := "A", createdAt := 1, updatedAt := 1 }

/-- The second sample session. -/
def sessSampleB : ChatSession := { id := "b", name := "B", createdAt := 2, updatedAt := 2 }

/-- A session-manager state holding the two sample sessions. -/
def smSample : SMState :=
  { sessions := [("a", sessSampleA), ("b", sessSampleB)], activeSessionId := some "a" }

/-! ## Lemmas about the map embedding -/

@[simp] theorem mapGet_mapSet_self {α : Type} (m : List (String × α)) (k : String) (v : α) :
    mapGet (mapSet m k v) k = some v := by
  induction m with
  | nil => simp [mapSet, mapGet]
  | cons e rest ih =>
    obtain ⟨k', v'⟩ := e
    by_cases h : k' = k <;> simp [mapSet, mapGet, h, ih]

theorem mapGet_mapSet_ne {α : Type} (m : List (String × α)) (k k' : String) (v : α)
    (h : k ≠ k') : mapGet (mapSet m k v) k' = mapGet m k' := by
  induction m with
  | nil => simp [mapSet, mapGet, h]
  | cons e rest ih =>
    obtain ⟨k₀, v₀⟩ := e
    by_cases h₀ : k₀ = k
    · subst h₀
      simp [mapSet, mapGet, h]
    · simp [mapSet, mapGet, h₀, ih]

@[simp] theorem mapGet_mapDel_self {α : Type} (m : List (String × α)) (k : String) :
    mapGet (mapDel m k) k = none := by
  induction m with
  | nil => rfl
  | cons e rest ih =>
    obtain ⟨k₀, v₀⟩ := e
    by_cases h₀ : k₀ = k <;> simp [mapDel, mapGet, h₀, ih]

theorem mapGet_mapDel_ne {α : Type} (m : List (String × α)) (k k' : String)
    (h : k' ≠ k) : mapGet (mapDel m k) k' = mapGet m k' := by
  induction m with
  | nil => rfl
  | cons e rest ih =>
    obtain ⟨k₀, v₀⟩ := e
    by_cases h₀ : k₀ = k
    · subst h₀
      simp [mapDel, mapGet, Ne.symm h, ih]
    · by_cases h₁ : k₀ = k' <;> simp [mapDel, mapGet, h₀, h₁, h, ih]

/-! ## Lemmas about the parser block loops -/

theorem procAssistantBlock_msgs (base : Msg) (acc : ToolMap × List Msg)
    (b : ContentBlock) : ∃ u, (procAssistantBlock base acc b).2 = acc.2 ++ u := by
  unfold procAssistantBlock
  split_ifs <;> first
    | exact ⟨_, rfl⟩
    | exact ⟨[], by simp⟩

theorem assistFold_msgs (base : Msg) (bs : List ContentBlock) :
    ∀ acc : ToolMap × List Msg,
      ∃ t, (bs.foldl (procAssistantBlock base) acc).2 = acc.2 ++ t := by
  induction bs with
  | nil => exact fun acc => ⟨[], by simp⟩
  | cons b t ih =>
    intro acc
    obtain ⟨u, hu⟩ := procAssistantBlock_msgs base acc b
    obtain ⟨w, hw⟩ := ih (procAssistantBlock base acc b)
    exact ⟨u ++ w, by rw [List.foldl_cons, hw, hu, List.append_assoc]⟩

theorem procAssistantBlock_get (base : Msg) (k : String) (acc : ToolMap × List Msg)
    (b : ContentBlock) (h : registersKey b k = false) :
    mapGet (procAssistantBlock base acc b).1 k = mapGet acc.1 k := by
  unfold procAssistantBlock
  split_ifs with h1 h2 h3 h4
  · rfl
  · rfl
  · have hne : b.id.getD "" ≠ k := by
      intro hcontra
      simp [registersKey, h3, h4, hcontra] at h
    exact mapGet_mapSet_ne _ _ _ _ hne
  · rfl
  · rfl

theorem assistFold_get (base : Msg) (k : String) (bs : List ContentBlock)
    (h : ∀ b ∈ bs, registersKey b k = false) :
    ∀ acc : ToolMap × List Msg,
      mapGet ((bs.foldl (procAssistantBlock base) acc)).1 k = mapGet acc.1 k := by
  induction bs with
  | nil => exact fun acc => rfl
  | cons b t ih =>
    intro acc
    rw [List.foldl_cons,
      ih (fun b' hb' => h b' (List.mem_cons_of_mem _ hb')),
      procAssistantBlock_get base k acc b (h b (List.mem_cons_self _ _))]

theorem userFold_skip (sid : Option String) (ierr : Option Bool)
    (bs : List ContentBlock) (h : ∀ b ∈ bs, matchesToolResult b = false) :
    ∀ acc : ToolMap × List Msg, bs.foldl (procUserBlock sid ierr) acc = acc := by
  induction bs with
  | nil => exact fun acc => rfl
  | cons b t ih =>
    intro acc
    have hb : procUserBlock sid ierr acc b = acc := by
      unfold procUserBlock
      rw [h b (List.mem_cons_self _ _)]
      simp
    rw [List.foldl_cons, hb, ih (fun b' hb' => h b' (List.mem_cons_of_mem _ hb'))]

/-! ## Lemmas about trimming -/

theorem dropWhile_dropWhile {α : Type} (p : α → Bool) :
    ∀ l : List α, (l.dropWhile p).dropWhile p = l.dropWhile p := by
  intro l
  induction l with
  | nil => rfl
  | cons a t ih =>
    by_cases h : p a <;> simp [List.dropWhile_cons, h, ih]

theorem head_dropWhile_false {α : Type} (p : α → Bool) :
    ∀ (l : List α) (a : α) (t : List α), l.dropWhile p = a :: t → p a = false := by
  intro l
  induction l with
  | nil => intro a t h; simp [List.dropWhile] at h
  | cons b l ih =>
    intro a t h
    by_cases hb : p b
    · exact ih a t (by simpa [List.dropWhile_cons, hb] using h)
    · rw [List.dropWhile_cons, if_neg (by simp [hb])] at h
      cases h
      simpa using hb

theorem dropWhile_clean_of_prefix {α : Type} (p : α → Bool) (l y : List α)
    (hpre : ∃ r, y ++ r = l.dropWhile p) : y.dropWhile p = y := by
  obtain ⟨r, hr⟩ := hpre
  cases y with
  | nil => rfl
  | cons a t =>
    have hpa : p a = false :=
      head_dropWhile_false p l a (t ++ r) (by rw [← hr]; rfl)
    rw [List.dropWhile_cons, if_neg (by simp [hpa])]

theorem jsTrimList_left_clean (l : List Char) :
    (jsTrimList l).dropWhile isJsWs = jsTrimList l := by
  apply dropWhile_clean_of_prefix isJsWs l
  refine ⟨((l.dropWhile isJsWs).reverse.takeWhile isJsWs).reverse, ?_⟩
  rw [show jsTrimList l = ((l.dropWhile isJsWs).reverse.dropWhile isJsWs).reverse from rfl,
    ← List.reverse_append, List.takeWhile_append_dropWhile, List.reverse_reverse]

theorem jsTrimList_idem (l : List Char) : jsTrimList (jsTrimList l) = jsTrimList l := by
  have h1 : (jsTrimList l).dropWhile isJsWs = jsTrimList l := jsTrimList_left_clean l
  have h2 : (jsTrimList l).reverse.dropWhile isJsWs = (jsTrimList l).reverse := by
    have hrev : (jsTrimList l).reverse = (l.dropWhile isJsWs).reverse.dropWhile isJsWs := by
      unfold jsTrimList
      rw [List.reverse_reverse]
    rw [hrev, dropWhile_dropWhile]
  calc jsTrimList (jsTrimList l)
      = (((jsTrimList l).dropWhile isJsWs).reverse.dropWhile isJsWs).reverse := rfl
    _ = ((jsTrimList l).reverse.dropWhile isJsWs).reverse := by rw [h1]
    _ = ((jsTrimList l).reverse).reverse := by rw [h2]
    _ = jsTrimList l := List.reverse_reverse _

theorem jsTrim_idem (s : String) : jsTrim (jsTrim s) = jsTrim s := by
  show (⟨jsTrimList (String.data ⟨jsTrimList s.data⟩)⟩ : String) = ⟨jsTrimList s.data⟩
  rw [show String.data ⟨jsTrimList s.data⟩ = jsTrimList s.data from rfl, jsTrimList_idem]

theorem jsTrim_of_all_ws (s : String) (h : s.data.all isJsWs = true) : jsTrim s = "" := by
  have hdrop : s.data.dropWhile isJsWs = [] := by
    rw [List.dropWhile_eq_nil_iff]
    intro x hx
    simpa using List.all_eq_true.mp h x hx
  have htl : jsTrimList s.data = [] := by
    unfold jsTrimList
    rw [hdrop]
    rfl
  show (⟨jsTrimList s.data⟩ : String) = ""
  rw [htl]

/-! ## Lemmas about the close-handler flush -/

theorem foldl_flushStep_messages (ms : List Msg) :
    ∀ acc : RunAcc, (ms.foldl flushStep acc).messages = acc.messages ++ ms := by
  induction ms with
  | nil => intro acc; simp
  | cons m t ih =>
    intro acc
    rw [List.foldl_cons, ih]
    show acc.messages ++ [m] ++ t = acc.messages ++ m :: t
    simp

theorem foldl_flushStep_sessionId (ms : List Msg) :
    ∀ acc : RunAcc, (ms.foldl flushStep acc).sessionId = acc.sessionId := by
  induction ms with
  | nil => intro acc; rfl
  | cons m t ih =>
    intro acc
    rw [List.foldl_cons, ih]
    rfl

theorem flushClose_messages (decode : String → Option RawStreamMessage)
    (pst : ToolMap) (acc : RunAcc) (buffer : String) :
    (flushClose decode pst acc buffer).2.messages
      = acc.messages ++ flushMsgs decode pst buffer := by
  unfold flushClose flushMsgs
  by_cases hb : jsTrim buffer ≠ ""
  · rcases hp : parseLineS decode pst buffer with ⟨pst', ms?⟩
    cases ms? with
    | none => simp [hb, hp]
    | some ms => simp [hb, hp, foldl_flushStep_messages]
  · simp [hb]

theorem flushClose_final_of_empty (decode : String → Option RawStreamMessage)
    (pst : ToolMap) (acc : RunAcc) (buffer : String)
    (h : flushMsgs decode pst buffer = []) :
    (flushClose decode pst acc buffer).2.finalContent = acc.finalContent := by
  unfold flushClose
  unfold flushMsgs at h
  by_cases hb : jsTrim buffer ≠ ""
  · rcases hp : parseLineS decode pst buffer with ⟨pst', ms?⟩
    cases ms? with
    | none => simp [hb, hp]
    | some ms =>
      rw [hp] at h
      simp [hb] at h
      simp [hb, hp, h]
  · simp [hb]

/-! ## Lemmas about the streaming loop accumulator -/

theorem processParsed_sessionId (acc : RunAcc) (m : Msg) :
    (processParsed acc m).sessionId
      = if strTruthy m.session_id then m.session_id else acc.sessionId := rfl

theorem foldl_processParsed_sessionId (msgs : List Msg) :
    ∀ acc : RunAcc, (msgs.foldl processParsed acc).sessionId
      = (match lastTruthySid msgs with
         | some s => some s
         | none => acc.sessionId) := by
  induction msgs with
  | nil => intro acc; rfl
  | cons m t ih =>
    intro acc
    rw [List.foldl_cons, ih]
    rcases hf : lastTruthySid t with _ | s
    · rcases hs : m.session_id with _ | s'
      · simp [lastTruthySid, hf, processParsed_sessionId, strTruthy, hs]
      · by_cases hs' : s' = "" <;>
          simp [lastTruthySid, hf, processParsed_sessionId, strTruthy, hs, hs']
    · simp [lastTruthySid, hf]

/-- Success characterisation of the close handler shared by the outcome
claims: a resolved outcome is successful exactly when the exit code is 0 or
the post-flush final content is non-empty. -/
theorem closeResolve_success_iff (decode : String → Option RawStreamMessage)
    (pst : ToolMap) (acc : RunAcc) (buffer stderrData : String) (code : Option Int) :
    (closeResolve decode pst acc buffer stderrData code).success = true
      ↔ (code = some 0 ∨ (flushClose decode pst acc buffer).2.finalContent ≠ "") := by
  by_cases hfc : (flushClose decode pst acc buffer).2.finalContent = ""
  · by_cases hcode : code = some 0 <;> simp [closeResolve, hfc, hcode]
  · simp [closeResolve, hfc]

/-! ## C1: run-outcome resolution -/

/-- C1: a resolved run outcome is successful exactly when the exit code is 0
or the final text accumulated by resolution time (after the close-handler
flush) is non-empty; in particular non-empty final text forces success, and a
failed outcome carries the captured stderr text, or the generic exit-status
message when stderr is empty. -/
theorem runOutcomeResolution (decode : String → Option RawStreamMessage)
    (pst : ToolMap) (acc : RunAcc) (buffer stderrData : String) (code : Option Int) :
    ((closeResolve decode pst acc buffer stderrData code).success = true
      ↔ (code = some 0 ∨ (flushClose decode pst acc buffer).2.finalContent ≠ "")) ∧
    ((flushClose decode pst acc buffer).2.finalContent ≠ ""
      → (closeResolve decode pst acc buffer stderrData code).success = true) ∧
    ((closeResolve decode pst acc buffer stderrData code).success = false
      → (closeResolve decode pst acc buffer stderrData code).error
        = some (if stderrData ≠ "" then stderrData
                else "Process exited with code " ++ codeStr code)) := by
  refine ⟨closeResolve_success_iff decode pst acc buffer stderrData code, ?_, ?_⟩
  · intro hfc
    simp [closeResolve, hfc]
  · intro hfalse
    by_cases hfc : (flushClose decode pst acc buffer).2.finalContent = ""
    · by_cases hcode : code = some 0
      · exfalso
        simp [closeResolve, hcode] at hfalse
      · simp [closeResolve, hfc, hcode]
    · exfalso
      simp [closeResolve, hfc] at hfalse

/-- Witness for C1: a run with accumulated text "hi" and a signal-terminated
exit resolves as success; a run with no text, exit code 1 and stderr "boom"
resolves as failure carrying "boom". -/
theorem runOutcomeResolution_witness :
    (closeResolve decodeNone [] { finalContent := "hi" } "" "" none).success = true ∧
    (closeResolve decodeNone [] {} "" "boom" (some 1)).error = some "boom" :=
  ⟨(runOutcomeResolution decodeNone [] { finalContent := "hi" } "" "" none).2.1
      (by decide),
   (runOutcomeResolution decodeNone [] {} "" "boom" (some 1)).2.2 (by decide)⟩

/-! ## C3: external session id accumulation -/

/-- C3 counterexample: after an event with session id `a`, a later event
carrying the different non-empty session id `b` changes the recorded id to
`b`; the first non-empty value does not win. -/
theorem sessionIdChangeCounterexample :
    (runAccOf [sidMsgA]).sessionId = some "a" ∧
    (runAccOf [sidMsgA, sidMsgB]).sessionId = some "b" ∧
    (runAccOf [sidMsgA, sidMsgB]).sessionId ≠ (runAccOf [sidMsgA]).sessionId := by
  refine ⟨rfl, rfl, fun hcontra => ?_⟩
  rw [show (runAccOf [sidMsgA, sidMsgB]).sessionId = some "b" from rfl,
    show (runAccOf [sidMsgA]).sessionId = some "a" from rfl] at hcontra
  exact absurd (Option.some.inj hcontra) (by decide)

/-- C3 as amended: the session id recorded for a run is the last non-empty
session id carried by any parsed event (each later non-empty id overwrites
the previous one). -/
theorem sessionIdLastWins (msgs : List Msg) :
    (runAccOf msgs).sessionId = lastTruthySid msgs := by
  unfold runAccOf
  rw [foldl_processParsed_sessionId]
  rcases hf : lastTruthySid msgs with _ | s <;> simp [hf]

/-! ## C4: abort/timeout does flush the buffered output -/

/-- C4 counterexample: a run terminated by abort/timeout (close code `null`)
with an unparsed `result` line still in the buffer and no previously
accumulated text parses that buffered line, appends its event, and resolves
as success — the buffered output is neither discarded nor does the run fail. -/
theorem abortDiscardCounterexample :
    (closeResolve decodeLate [] {} "LATE_RESULT_LINE" "" none).success = true ∧
    (closeResolve decodeLate [] {} "LATE_RESULT_LINE" "" none).messages =
      [{ type := "result", content := some "late" }] ∧
    (closeResolve decodeLate [] {} "LATE_RESULT_LINE" "" none).finalContent
      = some "late" :=
  ⟨rfl, rfl, rfl⟩

/-- C4 as amended: on a termination by abort or timeout (close code `null`),
the close handler parses the buffered line and appends the resulting events
to the run's message list; the run resolves as success exactly when final
text is non-empty after that flush, and — only when the flush contributes no
event — exactly when text had been accumulated before termination. -/
theorem abortResolutionAmended (decode : String → Option RawStreamMessage)
    (pst : ToolMap) (acc : RunAcc) (buffer stderrData : String) :
    (closeResolve decode pst acc buffer stderrData none).messages
      = acc.messages ++ flushMsgs decode pst buffer ∧
    ((closeResolve decode pst acc buffer stderrData none).success = true
      ↔ (flushClose decode pst acc buffer).2.finalContent ≠ "") ∧
    (flushMsgs decode pst buffer = []
      → ((closeResolve decode pst acc buffer stderrData none).success = true
          ↔ acc.finalContent ≠ "")) := by
  refine ⟨?_, ?_, ?_⟩
  · by_cases hc : (flushClose decode pst acc buffer).2.finalContent = "" <;>
      simp [closeResolve, hc, flushClose_messages]
  · rw [closeResolve_success_iff decode pst acc buffer stderrData none]
    simp
  · intro hempty
    rw [closeResolve_success_iff decode pst acc buffer stderrData none,
      flushClose_final_of_empty decode pst acc buffer hempty]
    simp

/-- Witness for C4's amended statement: with an empty buffer the flush
contributes nothing and a signal-terminated run with no accumulated text
fails. -/
theorem abortResolutionAmended_witness :
    (closeResolve decodeNone [] {} "" "x" none).messages = [] ∧
    ((closeResolve decodeNone [] {} "" "x" none).success = true
      ↔ ({} : RunAcc).finalContent ≠ "") := by
  have h := abortResolutionAmended decodeNone [] ({} : RunAcc) "" "x"
  exact ⟨h.1, h.2.2 rfl⟩

/-! ## C5: user-typed records with no matching blocks -/

/-- C5 counterexample: a `user` record whose only content block is a text
block (no `tool_result` matches the dispatch) parses to one event, not zero. -/
theorem userRecordEmitsCounterexample :
    (normalizeMessage [] userTextRaw).2.length = 1 ∧
    (normalizeMessage [] userTextRaw).2.length ≠ 0 :=
  ⟨rfl, by decide⟩

/-- C5 as amended: a `user`-typed record none of whose content blocks matches
the tool-result dispatch emits exactly one bare event carrying only the
record's discriminator and session id, and leaves the correlator unchanged. -/
theorem userRecordNoMatchAmended (st : ToolMap) (raw : RawStreamMessage)
    (bs : List ContentBlock) (hU : raw.type = "user")
    (hc : contentBlocks raw = some bs)
    (hnone : ∀ b ∈ bs, matchesToolResult b = false) :
    normalizeMessage st raw = (st, [{ type := "user", session_id := raw.session_id }]) := by
  have hskip := userFold_skip raw.session_id raw.is_error bs hnone (st, [])
  have htail : tailMsg raw = { type := "user", session_id := raw.session_id } := by
    unfold tailMsg baseMsg
    rw [hU]
    rfl
  unfold normalizeMessage
  rw [hU, hc]
  simp only [Option.isSome_some, Option.getD_some]
  rw [hskip]
  simp [htail]

/-- Witness for C5's amended statement: the sample text-only user record
yields exactly the bare user event. -/
theorem userRecordNoMatchAmended_witness :
    normalizeMessage [] userTextRaw = ([], [{ type := "user", session_id := some "s" }]) :=
  userRecordNoMatchAmended [] userTextRaw [textBlockSample] rfl rfl
    (by intro b hb; simp at hb; subst hb; rfl)

/-! ## C6: `parseLine` totality and boundary behaviour -/

/-- C6: `parseLine` is total and never fails the caller: a whitespace-only
(or empty) line yields no events, leading/trailing whitespace is removed
before decoding (parsing a line equals parsing its trimmed form), and a line
whose trimmed form fails to decode as structured data yields no events rather
than an error. `decode` abstracts `JSON.parse`, with `none` standing for a
thrown parse error that `parseLine` swallows. -/
theorem parseLineTotal (decode : String → Option RawStreamMessage)
    (st : ToolMap) (line : String) :
    (line.data.all isJsWs = true → parseLineS decode st line = (st, none)) ∧
    parseLineS decode st line = parseLineS decode st (jsTrim line) ∧
    (decode (jsTrim line) = none → parseLineS decode st line = (st, none)) := by
  refine ⟨?_, ?_, ?_⟩
  · intro hws
    unfold parseLineS
    rw [jsTrim_of_all_ws line hws]
    rfl
  · show parseLineS decode st line = parseLineS decode st (jsTrim line)
    unfold parseLineS
    rw [jsTrim_idem]
  · intro hdec
    unfold parseLineS
    by_cases ht : jsTrim line = ""
    · simp [ht]
    · simp [ht, hdec]

/-- Witness for C6: with a decode oracle that rejects everything, a
whitespace-only line and an untrimmed malformed line both yield no events. -/
theorem parseLineTotal_witness :
    parseLineS decodeNone [] "   " = ([], none) ∧
    parseLineS decodeNone [] " notjson " = ([], none) :=
  ⟨(parseLineTotal decodeNone [] "   ").1 rfl,
   (parseLineTotal decodeNone [] " notjson ").2.2 rfl⟩

/-! ## C7: the single-slot input queue -/

/-- C7: `queueInput` accepts exactly while a run is in progress and stores
the text; a second offer overwrites the slot (last write wins); a take after
the offers returns exactly the most recent text once, and an immediately
following take returns nothing; offers while no run is active are rejected
and change nothing. -/
theorem inputQueueSpec (st : CliState) (t1 t2 : String) (h : isRunning st = true) :
    (queueInput st t1).1 = true ∧
    (queueInput st t1).2.queuedInput = some t1 ∧
    (queueInput (queueInput st t1).2 t2).2.queuedInput = some t2 ∧
    (getAndClearQueuedInput (queueInput (queueInput st t1).2 t2).2).1 = some t2 ∧
    (getAndClearQueuedInput
      (getAndClearQueuedInput (queueInput (queueInput st t1).2 t2).2).2).1 = none ∧
    (∀ (st' : CliState) (t : String), isRunning st' = false
      → queueInput st' t = (false, st')) := by
  have hp : st.activeProcess.isSome = true := h
  refine ⟨?_, ?_, ?_, ?_, ?_, ?_⟩
  · simp [queueInput, isRunning, hp]
  · simp [queueInput, isRunning, hp]
  · simp [queueInput, isRunning, hp]
  · simp [queueInput, getAndClearQueuedInput, isRunning, hp]
  · simp [queueInput, getAndClearQueuedInput, isRunning, hp]
  · intro st' t h'
    simp [queueInput, h']

/-- Witness for C7: concrete exercise of the queue while a run is active. -/
theorem inputQueueSpec_witness :
    (queueInput { activeProcess := some () } "x").1 = true ∧
    (queueInput { activeProcess := some () } "x").2.queuedInput = some "x" ∧
    (queueInput (queueInput { activeProcess := some () } "x").2 "y").2.queuedInput = some "y" ∧
    (getAndClearQueuedInput
      (queueInput (queueInput { activeProcess := some () } "x").2 "y").2).1 = some "y" ∧
    (getAndClearQueuedInput
      (getAndClearQueuedInput
        (queueInput (queueInput { activeProcess := some () } "x").2 "y").2).2).1 = none ∧
    (∀ (st' : CliState) (t : String), isRunning st' = false
      → queueInput st' t = (false, st')) :=
  inputQueueSpec { activeProcess := some () } "x" "y" rfl

/-! ## C2: tool-call / tool-result correlation -/

theorem normalizeMessage_assistant (st : ToolMap) (raw : RawStreamMessage)
    (bs : List ContentBlock) (hA : raw.type = "assistant")
    (hc : contentBlocks raw = some bs) :
    normalizeMessage st raw =
      (if (bs.foldl (procAssistantBlock (baseMsg raw)) (st, [])).2.isEmpty
       then ((bs.foldl (procAssistantBlock (baseMsg raw)) (st, [])).1, [baseMsg raw])
       else bs.foldl (procAssistantBlock (baseMsg raw)) (st, [])) := by
  unfold normalizeMessage
  rw [hA, hc]
  rfl

theorem normalizeMessage_user (st : ToolMap) (raw : RawStreamMessage)
    (bs : List ContentBlock) (hU : raw.type = "user")
    (hc : contentBlocks raw = some bs) :
    normalizeMessage st raw =
      (if (bs.foldl (procUserBlock raw.session_id raw.is_error) (st, [])).2.isEmpty
       then ((bs.foldl (procUserBlock raw.session_id raw.is_error) (st, [])).1, [tailMsg raw])
       else bs.foldl (procUserBlock raw.session_id raw.is_error) (st, [])) := by
  unfold normalizeMessage
  rw [hU, hc]
  rfl

/-- C2: parsing an assistant record containing a `tool_use` block with id `k`
and name `nm` (and no later block re-registering `k`) registers
`(nm, input-or-empty-object)` in the correlator under `k` and emits the
tool-call event; a subsequent user record whose sole matching `tool_result`
block references `k` yields exactly one tool-result event carrying the
registered name and input, after which the correlator no longer contains `k`. -/
theorem toolCallCorrelation (st : ToolMap) (pre post upre upost : List ContentBlock)
    (bU bR : ContentBlock) (rawA rawU : RawStreamMessage) (k nm : String)
    (hA : rawA.type = "assistant")
    (hAc : contentBlocks rawA = some (pre ++ bU :: post))
    (hbty : bU.type = "tool_use") (hbid : bU.id = some k) (hbnm : bU.name = some nm)
    (hk : k ≠ "") (hnm : nm ≠ "")
    (hpost : ∀ b ∈ post, registersKey b k = false)
    (hU : rawU.type = "user")
    (hUc : contentBlocks rawU = some (upre ++ bR :: upost))
    (hRty : bR.type = "tool_result") (hRid : bR.tool_use_id = some k)
    (hside : ∀ b ∈ upre ++ upost, matchesToolResult b = false) :
    mapGet (normalizeMessage st rawA).1 k = some ⟨nm, jsOrInput bU.input⟩ ∧
    ({ type := "tool_use", id := some k, session_id := rawA.session_id,
       name := some nm, input := bU.input } : Msg) ∈ (normalizeMessage st rawA).2 ∧
    (normalizeMessage (normalizeMessage st rawA).1 rawU).2 =
      [{ type := "tool_result", id := some k, session_id := rawU.session_id,
         name := some nm, input := some (jsOrInput bU.input),
         output := bR.content, is_error := rawU.is_error }] ∧
    mapGet (normalizeMessage (normalizeMessage st rawA).1 rawU).1 k = none := by
  have c1 : isThinkingBlock bU = false := by rw [isThinkingBlock, hbty]; rfl
  have c2 : isTextBlock bU = false := by rw [isTextBlock, hbty]; rfl
  have c3 : (bU.type == "tool_use") = true := by rw [hbty]; rfl
  have c4 : canRegister bU = true := by
    rw [canRegister, hbid, hbnm]
    simp [strTruthy, hk, hnm]
  have hstep : ∀ acc : ToolMap × List Msg,
      procAssistantBlock (baseMsg rawA) acc bU
        = (mapSet acc.1 k ⟨nm, jsOrInput bU.input⟩,
           acc.2 ++ [{ type := "tool_use", id := some k, session_id := rawA.session_id,
                       name := some nm, input := bU.input }]) := by
    intro acc
    unfold procAssistantBlock
    simp [c1, c2, c3, c4, hbid, hbnm, baseMsg]
  set f := procAssistantBlock (baseMsg rawA) with hfdef
  set P := pre.foldl f (st, ([] : List Msg)) with hPdef
  set R := post.foldl f (f P bU) with hRdef
  obtain ⟨t, ht⟩ := assistFold_msgs (baseMsg rawA) post (f P bU)
  have hR2 : R.2 = (P.2 ++ [{ type := "tool_use", id := some k,
                              session_id := rawA.session_id, name := some nm,
                              input := bU.input }]) ++ t := by
    rw [hRdef, ht, hstep P]
  have hRempty : R.2.isEmpty = false := by
    rw [hR2]
    simp
  have key : normalizeMessage st rawA = R := by
    rw [normalizeMessage_assistant st rawA _ hA hAc, List.foldl_append, List.foldl_cons]
    rw [← hfdef, ← hPdef, ← hRdef, hRempty]
    rfl
  have hget1 : mapGet R.1 k = some ⟨nm, jsOrInput bU.input⟩ := by
    rw [hRdef, assistFold_get (baseMsg rawA) k post hpost, hstep P]
    exact mapGet_mapSet_self _ _ _
  have cm : matchesToolResult bR = true := by
    rw [matchesToolResult, hRty, hRid]
    simp [strTruthy, hk]
  have hstepU : procUserBlock rawU.session_id rawU.is_error (R.1, ([] : List Msg)) bR
      = (mapDel R.1 k,
         [{ type := "tool_result", id := some k, session_id := rawU.session_id,
            name := some nm, input := some (jsOrInput bU.input),
            output := bR.content, is_error := rawU.is_error }]) := by
    unfold procUserBlock
    rw [cm]
    simp [hRid, hget1]
  have huser : normalizeMessage R.1 rawU
      = (mapDel R.1 k,
         [{ type := "tool_result", id := some k, session_id := rawU.session_id,
            name := some nm, input := some (jsOrInput bU.input),
            output := bR.content, is_error := rawU.is_error }]) := by
    rw [normalizeMessage_user R.1 rawU _ hU hUc, List.foldl_append, List.foldl_cons,
      userFold_skip rawU.session_id rawU.is_error upre
        (fun b hb => hside b (List.mem_append_left _ hb)) (R.1, []),
      hstepU,
      userFold_skip rawU.session_id rawU.is_error upost
        (fun b hb => hside b (List.mem_append_right _ hb)) _]
    rfl
  refine ⟨?_, ?_, ?_, ?_⟩
  · rw [key]
    exact hget1
  · rw [key, hR2]
    simp
  · rw [key, huser]
  · rw [key, huser]
    exact mapGet_mapDel_self _ _

/-- Witness for C2: the sample `Read` tool call with id `t1` is registered and
correlated with its later result. -/
theorem toolCallCorrelation_witness :
    mapGet (normalizeMessage [] assistantToolUseRaw).1 "t1"
      = some ⟨"Read", jsOrInput toolUseBlockSample.input⟩ ∧
    ({ type := "tool_use", id := some "t1", session_id := some "sess",
       name := some "Read", input := toolUseBlockSample.input } : Msg)
      ∈ (normalizeMessage [] assistantToolUseRaw).2 ∧
    (normalizeMessage (normalizeMessage [] assistantToolUseRaw).1 userToolResultRaw).2
      = [{ type := "tool_result", id := some "t1", session_id := some "sess",
           name := some "Read", input := some (jsOrInput toolUseBlockSample.input),
           output := toolResultBlockSample.content, is_error := none }] ∧
    mapGet (normalizeMessage
      (normalizeMessage [] assistantToolUseRaw).1 userToolResultRaw).1 "t1" = none :=
  toolCallCorrelation [] [] [] [] [] toolUseBlockSample toolResultBlockSample
    assistantToolUseRaw userToolResultRaw "t1" "Read" rfl rfl rfl rfl rfl
    (by decide) (by decide) (by simp) rfl rfl rfl rfl (by simp)

/-! ## C8: load-time session validation -/

theorem msgCheck_eq_amended (m : JValue) : msgCheck m = amendedValidMessage m := by
  cases m with
  | null => rfl
  | arr l => rfl
  | bool b => cases b <;> rfl
  | num n => simp [msgCheck, amendedValidMessage, jsTruthy, typeofObject, getField]
  | str s => simp [msgCheck, amendedValidMessage, jsTruthy, typeofObject, getField]
  | obj fs =>
    rcases hid : getField (.obj fs) "id" with _ | v1
    · simp [msgCheck, amendedValidMessage, jsTruthy, typeofObject, hid]
    · rcases hrole : getField (.obj fs) "role" with _ | v2
      · cases v1 <;> simp [msgCheck, amendedValidMessage, jsTruthy, typeofObject, hid, hrole]
      · cases v1 <;> cases v2 <;>
          simp [msgCheck, amendedValidMessage, jsTruthy, typeofObject, hid, hrole]

theorem sessionValidation_pointwise (v : JValue) :
    isValidSession v = amendedValidSession v := by
  have hfun : msgCheck = amendedValidMessage := funext msgCheck_eq_amended
  cases v with
  | null => rfl
  | arr l => rfl
  | bool b => cases b <;> rfl
  | num n => simp [isValidSession, amendedValidSession, jsTruthy, typeofObject, getField]
  | str s => simp [isValidSession, amendedValidSession, jsTruthy, typeofObject, getField]
  | obj fs =>
    rcases hid : getField (.obj fs) "id" with _ | v1
    · simp [isValidSession, amendedValidSession, jsTruthy, typeofObject, hid]
    · cases v1 with
      | str sid =>
        rcases hm : getField (.obj fs) "messages" with _ | v2
        · simp [isValidSession, amendedValidSession, jsTruthy, typeofObject, hid, hm]
        · cases v2 with
          | arr ms =>
            rcases hca : getField (.obj fs) "createdAt" with _ | v3
            · simp [isValidSession, amendedValidSession, jsTruthy, typeofObject, hid, hm, hca]
            · cases v3 with
              | num nc =>
                rcases hua : getField (.obj fs) "updatedAt" with _ | v4
                · simp [isValidSession, amendedValidSession, jsTruthy, typeofObject,
                    hid, hm, hca, hua]
                · cases v4 with
                  | num nu =>
                    by_cases hsid : sid = "" <;>
                      simp [isValidSession, amendedValidSession, jsTruthy, typeofObject,
                        hid, hm, hca, hua, hsid, hfun]
                  | null => simp [isValidSession, amendedValidSession, jsTruthy,
                      typeofObject, hid, hm, hca, hua]
                  | bool b => simp [isValidSession, amendedValidSession, jsTruthy,
                      typeofObject, hid, hm, hca, hua]
                  | str s2 => simp [isValidSession, amendedValidSession, jsTruthy,
                      typeofObject, hid, hm, hca, hua]
                  | arr l2 => simp [isValidSession, amendedValidSession, jsTruthy,
                      typeofObject, hid, hm, hca, hua]
                  | obj o2 => simp [isValidSession, amendedValidSession, jsTruthy,
                      typeofObject, hid, hm, hca, hua]
              | null => simp [isValidSession, amendedValidSession, jsTruthy,
                  typeofObject, hid, hm, hca]
              | bool b => simp [isValidSession, amendedValidSession, jsTruthy,
                  typeofObject, hid, hm, hca]
              | str s2 => simp [isValidSession, amendedValidSession, jsTruthy,
                  typeofObject, hid, hm, hca]
              | arr l2 => simp [isValidSession, amendedValidSession, jsTruthy,
                  typeofObject, hid, hm, hca]
              | obj o2 => simp [isValidSession, amendedValidSession, jsTruthy,
                  typeofObject, hid, hm, hca]
          | null => simp [isValidSession, amendedValidSession, jsTruthy, typeofObject, hid, hm]
          | bool b => simp [isValidSession, amendedValidSession, jsTruthy, typeofObject, hid, hm]
          | num n2 => simp [isValidSession, amendedValidSession, jsTruthy, typeofObject, hid, hm]
          | str s2 => simp [isValidSession, amendedValidSession, jsTruthy, typeofObject, hid, hm]
          | obj o2 => simp [isValidSession, amendedValidSession, jsTruthy, typeofObject, hid, hm]
      | null => simp [isValidSession, amendedValidSession, jsTruthy, typeofObject, hid]
      | bool b => simp [isValidSession, amendedValidSession, jsTruthy, typeofObject, hid]
      | num n2 => simp [isValidSession, amendedValidSession, jsTruthy, typeofObject, hid]
      | arr l2 => simp [isValidSession, amendedValidSession, jsTruthy, typeofObject, hid]
      | obj o2 => simp [isValidSession, amendedValidSession, jsTruthy, typeofObject, hid]

/-- C8 counterexample: a record that satisfies the claim's acceptance
predicate (its message role `system` is in the claimed closed role set) is
nevertheless rejected by `isValidSession`, refuting the claimed
if-and-only-if characterisation of acceptance. -/
theorem roleSystemRejectedCounterexample :
    claimedValidSession systemRoleRec = true ∧ isValidSession systemRoleRec = false :=
  ⟨rfl, rfl⟩

/-- C8 as amended: a persisted record is accepted iff it has a non-empty
string id, a message list, numeric created-at/updated-at timestamps and every
message has a string id and a role drawn from the closed role set
`{user, assistant}` (role `system` is rejected); records failing the check —
such as one missing `updatedAt` — are skipped without aborting the load, so
the sample directory with one valid and one invalid record loads exactly one
session. -/
theorem sessionValidationAmended :
    (∀ v, isValidSession v = amendedValidSession v) ∧
    (loadSessions [("a.json", some validSessionRec),
                   ("b.json", some noUpdatedAtRec)]).length = 1 ∧
    (mapGet (loadSessions [("a.json", some validSessionRec),
                           ("b.json", some noUpdatedAtRec)]) "s1").isSome = true :=
  ⟨sessionValidation_pointwise, rfl, rfl⟩

/-! ## C9: session creation -/

theorem getActiveSession_of_id (st : SMState) (id : String)
    (h : st.activeSessionId = some id) (hne : id ≠ "") :
    getActiveSession st = mapGet st.sessions id := by
  unfold getActiveSession
  rw [h]
  simp [hne]

theorem generateId_ne_empty (now : Nat) (rand : String) : generateId now rand ≠ "" := by
  intro hcontra
  have hlen := congrArg String.length hcontra
  rw [generateId, String.length_append, String.length_append, String.length_append,
    show "session-".length = 8 from rfl, show "-".length = 1 from rfl,
    show "".length = 0 from rfl] at hlen
  omega

/-- C9 counterexample: the two `Date.now()` readings taken for `createdAt`
and `updatedAt` are separate calls; when the clock advances between them
(reading 0 then 1), the created session has `createdAt ≠ updatedAt`. -/
theorem createSessionTimestampsCounterexample :
    (createSession {} none "d" 0 0 1 "r").1.createdAt
      ≠ (createSession {} none "d" 0 0 1 "r").1.updatedAt := by
  decide

/-- C9 as amended: `createSession` always returns a session with an empty
message list whose `createdAt` and `updatedAt` are two consecutive clock
readings — so `createdAt ≤ updatedAt` under a monotone clock, with equality
exactly when the clock did not advance between the readings — and makes the
new session active, so `getActiveSession` immediately returns it. -/
theorem createSessionAmended (st : SMState) (nameOpt : Option String)
    (dateStr : String) (now0 now1 now2 : Nat) (rand : String) (h : now1 ≤ now2) :
    (createSession st nameOpt dateStr now0 now1 now2 rand).1.messages = [] ∧
    (createSession st nameOpt dateStr now0 now1 now2 rand).1.createdAt
      ≤ (createSession st nameOpt dateStr now0 now1 now2 rand).1.updatedAt ∧
    (now1 = now2 →
      (createSession st nameOpt dateStr now0 now1 now2 rand).1.createdAt
        = (createSession st nameOpt dateStr now0 now1 now2 rand).1.updatedAt) ∧
    getActiveSession (createSession st nameOpt dateStr now0 now1 now2 rand).2
      = some (createSession st nameOpt dateStr now0 now1 now2 rand).1 := by
  refine ⟨rfl, h, fun he => he, ?_⟩
  rw [getActiveSession_of_id _ (generateId now0 rand) rfl (generateId_ne_empty now0 rand)]
  exact mapGet_mapSet_self _ _ _

/-- Witness for C9's amended statement, at equal clock readings. -/
theorem createSessionAmended_witness :
    (createSession {} none "d" 7 9 9 "r").1.messages = [] ∧
    (createSession {} none "d" 7 9 9 "r").1.createdAt
      ≤ (createSession {} none "d" 7 9 9 "r").1.updatedAt ∧
    (9 = 9 →
      (createSession {} none "d" 7 9 9 "r").1.createdAt
        = (createSession {} none "d" 7 9 9 "r").1.updatedAt) ∧
    getActiveSession (createSession {} none "d" 7 9 9 "r").2
      = some (createSession {} none "d" 7 9 9 "r").1 :=
  createSessionAmended {} none "d" 7 9 9 "r" (by decide)

/-! ## C10: session deletion -/

/-- C10: `deleteSession` removes the in-memory entry before attempting the
durable deletion, so the session is absent afterwards whether or not the
durable deletion fails, and other sessions (and the active-session pointer)
are untouched. -/
theorem deleteSessionSpec (st : SMState) (id other : String) (vaultFails : Bool)
    (h : other ≠ id) :
    getSession (deleteSession st id vaultFails) id = none ∧
    getSession (deleteSession st id vaultFails) other = getSession st other ∧
    (deleteSession st id vaultFails).activeSessionId = st.activeSessionId :=
  ⟨mapGet_mapDel_self _ _, mapGet_mapDel_ne _ _ _ h, rfl⟩

/-- Witness for C10: deleting session `a` while the durable deletion fails
leaves `b` intact and `a` gone. -/
theorem deleteSessionSpec_witness :
    getSession (deleteSession smSample "a" true) "a" = none ∧
    getSession (deleteSession smSample "a" true) "b" = getSession smSample "b" ∧
    (deleteSession smSample "a" true).activeSessionId = smSample.activeSessionId :=
  deleteSessionSpec smSample "a" "b" true (by decide)

end ObsidianClaude
